import Mathlib

/-!
Shallow embedding of the storage/analytics core of the QA dashboard
repository: the three record-store adapters (local filesystem,
Google Drive, OneDrive), the unified storage facade with its provider
selection / fallback policy, and the analytics aggregation, together
with proofs of the specification claims about them.

Conventions of the embedding:
* ISO-8601 timestamps are modelled as epoch milliseconds (`Nat`);
  JavaScript `new Date(x) < new Date(y)` comparisons become `Nat`
  comparisons on those values.
* JavaScript strings used only as opaque data stay `String`; object
  names, which the code builds and tests character by character
  (sanitization, `.endsWith('.json')`, case-insensitive `includes`),
  are modelled as `List Char`.
* A stored object's JSON body is modelled by `Content`: either a
  parsable `TestRecord` or `corrupt` (a body `JSON.parse` rejects).
* `logger.warn` calls during scans are modelled by returning the list
  of warned-about object names alongside the results.
* Floating point: `successRate` is `(passed/total*100).toFixed(2)`;
  its value is modelled exactly in hundredths of a percent
  (`successRateCenti`), rounded to nearest with ties up, which is the
  rounding `toFixed` performs on these quotients.  `avgExecutionTime`
  is `Math.round(sum/len)`, i.e. `⌊sum/len + 1/2⌋`.
-/

namespace QADash

abbrev Millis := Nat

/-- Milliseconds in a day: `cutoffDate.setDate(getDate() - daysToKeep)`
is modelled as subtracting `daysToKeep` days of milliseconds. -/
def msPerDay : Nat := 86400000

/-- The unit of persistence (wire-format fields, spec section 3). -/
structure TestRecord where
  test_name : String
  status : String
  execution_time : Nat
  framework : String
  team_member_name : String
  project_name : String
  environment : String
  created_at : Millis
  metadata : List (String × String)
deriving DecidableEq, Repr

/-- Result of `JSON.parse` on a stored object's body: a parsable test
record, or a corrupt (non-JSON) body. -/
inductive Content where
  | valid (r : TestRecord)
  | corrupt
deriving DecidableEq, Repr

/-- One object in a provider's results container, with the metadata the
providers attach: an opaque id, the object name, the provider-side
creation timestamp, a JSON mime flag (Google Drive filters on
`mimeType='application/json'`), the body, the indexable properties
Google Drive stores at upload time, and a size. -/
structure StoredObject where
  id : String
  name : List Char
  createdTime : Millis
  mimeJson : Bool
  content : Content
  propStatus : String
  propTeamMember : String
  propProject : String
  size : Nat
deriving DecidableEq, Repr

/-- The common query object (spec section 3); every field optional. -/
structure FilterCriteria where
  startDate : Option Millis
  endDate : Option Millis
  status : Option String
  teamMember : Option String
  project : Option String
  searchTerm : Option String
deriving DecidableEq, Repr

/-- The all-`none` criteria object (`{}` / defaulted argument). -/
def emptyFilter : FilterCriteria :=
  { startDate := none, endDate := none, status := none,
    teamMember := none, project := none, searchTerm := none }

/-- A record as returned by `getTestResults`: the parsed test data
augmented with `fileId`, `fileName`, `createdTime`. -/
structure ResultRecord where
  record : TestRecord
  fileId : String
  fileName : List Char
  createdTime : Millis
deriving DecidableEq, Repr

/-- Return value of `storeTestResult`. -/
structure StoreResult where
  fileId : String
  fileName : List Char
  createdTime : Millis
deriving DecidableEq, Repr

/-- `s.endsWith(suffix)` on character lists. -/
def endsWith (l s : List Char) : Bool :=
  s == l.drop (l.length - s.length)

def jsonExt : List Char := ".json".data

/-- `file.endsWith('.json')`. -/
def hasJsonExt (n : List Char) : Bool := endsWith n jsonExt

/-- `needle` occurs as a contiguous substring of `hay`
(JavaScript `String.prototype.includes`). -/
def hasSub (hay needle : List Char) : Bool :=
  match hay with
  | [] => needle.isEmpty
  | c :: t => needle.isPrefixOf (c :: t) || hasSub t needle

/-- Lower-cased character list of a string
(`s.toLowerCase()` on the modelled fields). -/
def lowerChars (s : String) : List Char := s.data.map Char.toLower

/-- `s.toLowerCase()` as a string (character-wise lowercase). -/
def strToLower (s : String) : String := String.mk (lowerChars s)

/-- `test_name.replace(/[^a-zA-Z0-9]/g, '-')`. -/
def sanitizeChars (s : String) : List Char :=
  s.data.map (fun c => if c.isAlpha || c.isDigit then c else '-')

/-- `test-result-<epoch-ms>-<sanitized-test-name>.json`, the object
name every adapter derives in `storeTestResult`. -/
def resultFileName (now : Millis) (r : TestRecord) : List Char :=
  "test-result-".data ++ (toString now).data ++ ('-' :: sanitizeChars r.test_name)
    ++ jsonExt

/-- Insertion step for sorting by a `Nat` key in descending order
(the `results.sort((a, b) => new Date(b.createdTime) - new Date(a.createdTime))`
step, and the providers' `orderBy createdTime desc` listings). -/
def insertK (k : α → Nat) (x : α) : List α → List α
  | [] => [x]
  | y :: ys => if k y ≤ k x then x :: y :: ys else y :: insertK k x ys

/-- Sort by a `Nat` key, largest (newest) first. -/
def sortK (k : α → Nat) : List α → List α
  | [] => []
  | x :: xs => insertK k x (sortK k xs)

/-- Descending-by-key sortedness. -/
abbrev SortedDescBy (k : α → Nat) (l : List α) : Prop :=
  l.Pairwise (fun a b => k b ≤ k a)

end QADash

namespace QADash

/-! ## The local-filesystem adapter
(`createLocalStorageProvider` in the unified storage service). -/

namespace LocalStorage

/-- The in-memory filter pass of the local adapter's `getTestResults`:
a parsed record survives the five `continue` checks (note: `searchTerm`
is never consulted). -/
def keep (f : FilterCriteria) (r : TestRecord) : Bool :=
  (match f.startDate with | none => true | some d => decide (d ≤ r.created_at)) &&
  (match f.endDate with | none => true | some d => decide (r.created_at ≤ d)) &&
  (match f.status with | none => true | some s => r.status == s) &&
  (match f.teamMember with | none => true | some t => r.team_member_name == t) &&
  (match f.project with | none => true | some p => r.project_name == p)

/-- The directory scan of the local `getTestResults`: for each `.json`
file, parse; on parse failure warn and skip; otherwise apply the
filter checks and collect the augmented record.  Returns
(results in directory order, warned file names). -/
def scan (f : FilterCriteria) : List StoredObject → List ResultRecord × List (List Char)
  | [] => ([], [])
  | o :: rest =>
    let (rs, ws) := scan f rest
    if hasJsonExt o.name then
      match o.content with
      | .corrupt => (rs, o.name :: ws)
      | .valid r =>
        if keep f r then
          ({ record := r, fileId := String.mk o.name, fileName := o.name,
             createdTime := r.created_at } :: rs, ws)
        else (rs, ws)
    else (rs, ws)

/-- `getTestResults(filters)` of the local adapter: scan the storage
directory, then sort newest-first by `createdTime`
(which the local adapter sets to the record's `created_at`). -/
def getTestResults (f : FilterCriteria) (store : List StoredObject) :
    List ResultRecord × List (List Char) :=
  let (rs, ws) := scan f store
  (sortK (fun x => x.createdTime) rs, ws)

/-- `storeTestResult(testData)` of the local adapter: write a new file
named `test-result-<now>-<sanitized>.json` (the body additionally
carries `storedAt` and `storageType`, modelled by `localFileBody`
below) and return its id/name/creation time. -/
def storeTestResult (store : List StoredObject) (now : Millis) (r : TestRecord) :
    StoreResult × List StoredObject :=
  let name := resultFileName now r
  let o : StoredObject :=
    { id := String.mk name, name := name, createdTime := now, mimeJson := true,
      content := .valid r, propStatus := "", propTeamMember := "",
      propProject := "", size := 0 }
  ({ fileId := String.mk name, fileName := name, createdTime := now },
   store ++ [o])

end LocalStorage

/-! ## Analytics aggregation
The identical block computed by all three adapters' `getAnalytics`. -/

/-- `[...new Set(xs)]`: deduplicate keeping first occurrences in order. -/
def dedupFirst : List String → List String
  | [] => []
  | x :: xs => x :: (dedupFirst xs).filter (fun y => y != x)

/-- The derived-analytics object.  `successRateCenti` is the value of
`successRate` in hundredths of a percent (so `5000` renders as the
`"50.00"` that `toFixed(2)` produces); `avgExecutionTime` is the
`Math.round`ed integer mean. -/
structure Analytics where
  totalTests : Nat
  passedTests : Nat
  failedTests : Nat
  skippedTests : Nat
  blockedTests : Nat
  successRateCenti : Nat
  frameworks : List String
  projects : List String
  teamMembers : List String
  avgExecutionTime : Nat
deriving DecidableEq, Repr

/-- The aggregation block shared verbatim by the three adapters'
`getAnalytics` implementations. -/
def computeAnalytics (results : List ResultRecord) : Analytics :=
  let n := results.length
  let p := (results.filter (fun x => x.record.status == "passed")).length
  { totalTests := n
    passedTests := p
    failedTests := (results.filter (fun x => x.record.status == "failed")).length
    skippedTests := (results.filter (fun x => x.record.status == "skipped")).length
    blockedTests := (results.filter (fun x => x.record.status == "blocked")).length
    successRateCenti := if 0 < n then (2 * p * 10000 + n) / (2 * n) else 0
    frameworks := dedupFirst (results.map (fun x => x.record.framework))
    projects := dedupFirst (results.map (fun x => x.record.project_name))
    teamMembers := dedupFirst (results.map (fun x => x.record.team_member_name))
    avgExecutionTime :=
      if 0 < n then
        (2 * (results.map (fun x => x.record.execution_time)).sum + n) / (2 * n)
      else 0 }

/-- Case-insensitive substring match over test name, team member and
project name (the local adapter's `searchTestResults` predicate, also
used to model the providers' full-text search). -/
def matchesTerm (term : String) (r : TestRecord) : Bool :=
  hasSub (lowerChars r.test_name) (lowerChars term) ||
  hasSub (lowerChars r.team_member_name) (lowerChars term) ||
  hasSub (lowerChars r.project_name) (lowerChars term)

/-- Aggregate size/count report of `getStorageInfo`. -/
structure StorageInfo where
  totalSize : Nat
  fileCount : Nat
  oldestFile : Option Millis
deriving DecidableEq, Repr

namespace LocalStorage

/-- Local `getAnalytics(filters)`: retrieve then aggregate. -/
def getAnalytics (f : FilterCriteria) (store : List StoredObject) : Analytics :=
  computeAnalytics (getTestResults f store).1

/-- Local `searchTestResults(searchTerm)`: `getTestResults()` with the
defaulted (empty) criteria, then the case-insensitive includes filter. -/
def searchTestResults (term : String) (store : List StoredObject) :
    List ResultRecord :=
  ((getTestResults emptyFilter store).1).filter (fun x => matchesTerm term x.record)

/-- Local `cleanupOldResults(daysToKeep)`: for each `.json` file, parse
(parse failure: warn, keep, continue) and delete it when its
`created_at` is strictly before `now - daysToKeep` days.  A failed
unlink (`deleteOk` false) is caught by the per-file handler: the file
stays, a warning is logged, the loop continues.  Returns
(deleted count, remaining store, warned names). -/
def cleanupOldResults (now : Millis) (daysToKeep : Nat)
    (deleteOk : List Char → Bool) :
    List StoredObject → Nat × List StoredObject × List (List Char)
  | [] => (0, [], [])
  | o :: rest =>
    let (c, s, w) := cleanupOldResults now daysToKeep deleteOk rest
    if hasJsonExt o.name then
      match o.content with
      | .corrupt => (c, o :: s, o.name :: w)
      | .valid r =>
        if r.created_at < now - daysToKeep * msPerDay then
          if deleteOk o.name then (c + 1, s, w)
          else (c, o :: s, o.name :: w)
        else (c, o :: s, w)
    else (c, o :: s, w)

/-- Local `getStorageInfo()`: totals over the `.json` files
(`oldestFile` is hard-coded `null` in the source). -/
def getStorageInfo (store : List StoredObject) : StorageInfo :=
  let js := store.filter (fun o => hasJsonExt o.name)
  { totalSize := (js.map (fun o => o.size)).sum
    fileCount := js.length
    oldestFile := none }

end LocalStorage

/-! ## Shared cloud-adapter pieces -/

/-- The download-and-parse loop both cloud adapters run over the files
returned by the provider listing: parse each body, warn and skip on
parse failure, augment with `fileId`/`fileName`/`createdTime` (the
provider-side creation time). -/
def downloadAndParse : List StoredObject → List ResultRecord × List (List Char)
  | [] => ([], [])
  | o :: rest =>
    let (rs, ws) := downloadAndParse rest
    match o.content with
    | .corrupt => (rs, o.name :: ws)
    | .valid r =>
      ({ record := r, fileId := o.id, fileName := o.name,
         createdTime := o.createdTime } :: rs, ws)

/-- Per-file deletion loop of the cloud adapters' `cleanupOldResults`:
the provider listing already restricted to `createdTime < cutoff`;
each file is deleted, a failed delete (`deleteOk` false) is logged and
the loop continues. -/
def cleanupLoop (cutoff : Millis) (deleteOk : List Char → Bool) :
    List StoredObject → Nat × List StoredObject × List (List Char)
  | [] => (0, [], [])
  | o :: rest =>
    let (c, s, w) := cleanupLoop cutoff deleteOk rest
    if o.createdTime < cutoff then
      if deleteOk o.name then (c + 1, s, w)
      else (c, o :: s, o.name :: w)
    else (c, o :: s, w)

/-- Earliest `createdTime` among the listed files
(`Math.min(...files.map(f => new Date(f.createdTime)))`). -/
def oldestTime : List StoredObject → Option Millis
  | [] => none
  | o :: rest => some (rest.foldl (fun m p => min m p.createdTime) o.createdTime)

/-- Modelled provider full-text search over a stored body. -/
def contentHasTerm (term : String) : Content → Bool
  | .corrupt => false
  | .valid r => matchesTerm term r

/-! ## The Google Drive adapter (`GoogleDriveService`). -/

namespace GoogleDrive

/-- The Drive query built by `getTestResults`: mime-typed JSON children
of the results folder, with every provided criterion pushed down
natively — date bounds on `createdTime`, and `properties has` clauses
for status / team member / project (`searchTerm` is never consulted). -/
def nativeKeep (f : FilterCriteria) (o : StoredObject) : Bool :=
  o.mimeJson &&
  (match f.startDate with | none => true | some d => decide (d ≤ o.createdTime)) &&
  (match f.endDate with | none => true | some d => decide (o.createdTime ≤ d)) &&
  (match f.status with | none => true | some s => o.propStatus == s) &&
  (match f.teamMember with | none => true | some t => o.propTeamMember == t) &&
  (match f.project with | none => true | some p => o.propProject == p)

/-- Drive `getTestResults(filters)`: list with the native query,
ordered `createdTime desc` by the API, then download and parse each
file (no residual filter pass). -/
def getTestResults (f : FilterCriteria) (store : List StoredObject) :
    List ResultRecord × List (List Char) :=
  downloadAndParse (sortK (fun o => o.createdTime) (store.filter (nativeKeep f)))

/-- Drive `getAnalytics(filters)`. -/
def getAnalytics (f : FilterCriteria) (store : List StoredObject) : Analytics :=
  computeAnalytics (getTestResults f store).1

/-- Drive `storeTestResult(testData)`: upload the JSON body with the
indexable `properties` (status, team member, project, framework,
timestamp) attached to the file metadata. -/
def storeTestResult (store : List StoredObject) (now : Millis) (r : TestRecord) :
    StoreResult × List StoredObject :=
  let name := resultFileName now r
  let o : StoredObject :=
    { id := String.mk name, name := name, createdTime := now, mimeJson := true,
      content := .valid r, propStatus := r.status,
      propTeamMember := r.team_member_name, propProject := r.project_name,
      size := 0 }
  ({ fileId := o.id, fileName := name, createdTime := now }, store ++ [o])

/-- Drive `searchTestResults(searchTerm)`: the provider query
`name contains term or fullText contains term` (modelled as
case-insensitive substring over the name and the record's searchable
fields), ordered newest-first, then download and parse. -/
def searchTestResults (term : String) (store : List StoredObject) :
    List ResultRecord × List (List Char) :=
  downloadAndParse (sortK (fun o => o.createdTime)
    (store.filter (fun o =>
      hasSub (o.name.map Char.toLower) (lowerChars term) ||
      contentHasTerm term o.content)))

/-- Drive `cleanupOldResults(daysToKeep)`: list children with
`createdTime < cutoff` (file metadata, no mime restriction), delete
each, per-file failures logged and skipped. -/
def cleanupOldResults (now : Millis) (daysToKeep : Nat)
    (deleteOk : List Char → Bool) (store : List StoredObject) :
    Nat × List StoredObject × List (List Char) :=
  cleanupLoop (now - daysToKeep * msPerDay) deleteOk store

/-- Drive `getStorageInfo()`: totals over all children of the folder. -/
def getStorageInfo (store : List StoredObject) : StorageInfo :=
  { totalSize := (store.map (fun o => o.size)).sum
    fileCount := store.length
    oldestFile := oldestTime store }

end GoogleDrive

/-! ## The OneDrive adapter (`OneDriveService`). -/

namespace OneDrive

/-- The native phase of OneDrive's `getTestResults`: only the date
bounds are pushed into the Graph `$filter`; status / team member /
project are applied in the residual in-memory pass, `searchTerm`
never. -/
def nativeKeep (f : FilterCriteria) (o : StoredObject) : Bool :=
  (match f.startDate with | none => true | some d => decide (d ≤ o.createdTime)) &&
  (match f.endDate with | none => true | some d => decide (o.createdTime ≤ d))

/-- The residual in-memory pass ("filters that couldn't be done at API
level"). -/
def residual (f : FilterCriteria) (x : ResultRecord) : Bool :=
  (match f.status with | none => true | some s => x.record.status == s) &&
  (match f.teamMember with | none => true | some t => x.record.team_member_name == t) &&
  (match f.project with | none => true | some p => x.record.project_name == p)

/-- OneDrive `getTestResults(filters)`: native date filtering, ordered
`createdDateTime desc`, download and parse, then the residual pass. -/
def getTestResults (f : FilterCriteria) (store : List StoredObject) :
    List ResultRecord × List (List Char) :=
  let (rs, ws) :=
    downloadAndParse (sortK (fun o => o.createdTime) (store.filter (nativeKeep f)))
  (rs.filter (residual f), ws)

/-- OneDrive `getAnalytics(filters)`. -/
def getAnalytics (f : FilterCriteria) (store : List StoredObject) : Analytics :=
  computeAnalytics (getTestResults f store).1

/-- OneDrive `storeTestResult(testData)`: PUT the JSON body, then PATCH
the custom properties used for filtering. -/
def storeTestResult (store : List StoredObject) (now : Millis) (r : TestRecord) :
    StoreResult × List StoredObject :=
  let name := resultFileName now r
  let o : StoredObject :=
    { id := String.mk name, name := name, createdTime := now, mimeJson := true,
      content := .valid r, propStatus := r.status,
      propTeamMember := r.team_member_name, propProject := r.project_name,
      size := 0 }
  ({ fileId := o.id, fileName := name, createdTime := now }, store ++ [o])

/-- OneDrive `searchTestResults(searchTerm)`: the Graph
`search(q='term')` call (modelled as case-insensitive substring over
name and record fields), then download and parse. -/
def searchTestResults (term : String) (store : List StoredObject) :
    List ResultRecord × List (List Char) :=
  downloadAndParse
    (store.filter (fun o =>
      hasSub (o.name.map Char.toLower) (lowerChars term) ||
      contentHasTerm term o.content))

/-- OneDrive `cleanupOldResults(daysToKeep)`: list children with
`createdDateTime lt cutoff`, delete each, per-file failures logged and
skipped. -/
def cleanupOldResults (now : Millis) (daysToKeep : Nat)
    (deleteOk : List Char → Bool) (store : List StoredObject) :
    Nat × List StoredObject × List (List Char) :=
  cleanupLoop (now - daysToKeep * msPerDay) deleteOk store

/-- OneDrive `getStorageInfo()`: totals over all children. -/
def getStorageInfo (store : List StoredObject) : StorageInfo :=
  { totalSize := (store.map (fun o => o.size)).sum
    fileCount := store.length
    oldestFile := oldestTime store }

end OneDrive

/-! ## Persisted body shapes (the serialized object each adapter writes). -/

/-- The serialized form of a stored record: the wire-format record
together with any additional top-level fields the adapter merges in. -/
structure PersistedBody where
  record : TestRecord
  extras : List (String × String)
deriving DecidableEq, Repr

/-- Google Drive upload body: `JSON.stringify(testData, null, 2)` —
exactly the record's fields. -/
def googleFileBody (r : TestRecord) : PersistedBody := ⟨r, []⟩

/-- OneDrive upload body: `JSON.stringify(testData, null, 2)` —
exactly the record's fields. -/
def oneDriveFileBody (r : TestRecord) : PersistedBody := ⟨r, []⟩

/-- Local adapter file body:
`{ ...testData, storedAt: new Date().toISOString(), storageType: 'local' }`. -/
def localFileBody (r : TestRecord) (storedAt : String) : PersistedBody :=
  ⟨r, [("storedAt", storedAt), ("storageType", "local")]⟩

/-! ## The unified storage facade (`UnifiedStorageService`). -/

/-- Which adapter object `this.storageProvider` points at. -/
inductive ProviderHandle where
  | google
  | onedrive
  | localFs
deriving DecidableEq, Repr

/-- The environment the service consults: the explicit
`STORAGE_PROVIDER` value, whether Google / OneDrive credential
variables are present, and whether each cloud adapter's
`initialize()` call would succeed (credentials may also come from a
credentials file, and initialization can still fail with credentials
present, so these outcomes are independent flags). -/
structure Env where
  storageProvider : Option String
  googleCreds : Bool
  oneDriveCreds : Bool
  googleInitOk : Bool
  oneDriveInitOk : Bool
deriving DecidableEq, Repr

/-- The provider-name selection in `initialize()`: explicit
configuration first, else credential-driven auto-detection
(Google Drive before OneDrive), else `'local'`. -/
def selectProviderName (env : Env) : String :=
  match env.storageProvider with
  | some s => strToLower s
  | none =>
    if env.googleCreds then "google-drive"
    else if env.oneDriveCreds then "onedrive"
    else "local"

/-- `initializeProvider()`: dispatch on the provider name; any failure
(cloud `initialize()` throwing, or an unsupported name) is caught
inside this routine and silently replaced by the local-filesystem
provider, so the routine always yields a (name, handle) pair and never
surfaces an error. -/
def initializeProvider (env : Env) (name : String) : String × ProviderHandle :=
  if name = "google-drive" then
    if env.googleInitOk then (name, .google) else ("local", .localFs)
  else if name = "onedrive" then
    if env.oneDriveInitOk then (name, .onedrive) else ("local", .localFs)
  else if name = "local" then ("local", .localFs)
  else ("local", .localFs)

/-- The implicit startup initialization (`initialize()` called from the
constructor): select, then initialize the selected provider. -/
def startupInit (env : Env) : String × ProviderHandle :=
  initializeProvider env (selectProviderName env)

/-- `switchProvider(newProvider)`: overwrite `this.providerName` with
the lower-cased target and re-run `initializeProvider()`; the previous
state `st` is not consulted.  Because `initializeProvider` swallows
every failure, the surrounding try/catch never fires and the call
returns `true` with whatever state `initializeProvider` produced. -/
def switchProvider (env : Env) (st : String × ProviderHandle)
    (newProvider : String) : Bool × (String × ProviderHandle) :=
  let _ := st
  (true, initializeProvider env (strToLower newProvider))

/-- The facade's process-wide state: the active provider name, the
adapter handle, and the active provider's results container. -/
structure FacadeState where
  providerName : String
  handle : ProviderHandle
  container : List StoredObject
deriving Repr

/-- `getProviderInfo()` payload. -/
structure ProviderInfo where
  name : String
  type : String
  description : String
deriving DecidableEq, Repr

/-- `getProviderDescription()`. -/
def getProviderDescription (name : String) : String :=
  if name = "google-drive" then "Google Drive Cloud Storage"
  else if name = "onedrive" then "Microsoft OneDrive Cloud Storage"
  else if name = "local" then "Local File System Storage"
  else "Unknown Storage Provider"

namespace Unified

/-- Facade `storeTestResult`: forward to the active adapter. -/
def storeTestResult (now : Millis) (r : TestRecord) (st : FacadeState) :
    StoreResult × FacadeState :=
  match st.handle with
  | .localFs =>
    let (res, c) := LocalStorage.storeTestResult st.container now r
    (res, { st with container := c })
  | .google =>
    let (res, c) := GoogleDrive.storeTestResult st.container now r
    (res, { st with container := c })
  | .onedrive =>
    let (res, c) := OneDrive.storeTestResult st.container now r
    (res, { st with container := c })

/-- Facade `getTestResults`: forward to the active adapter. -/
def getTestResults (f : FilterCriteria) (st : FacadeState) :
    (List ResultRecord × List (List Char)) × FacadeState :=
  match st.handle with
  | .localFs => (LocalStorage.getTestResults f st.container, st)
  | .google => (GoogleDrive.getTestResults f st.container, st)
  | .onedrive => (OneDrive.getTestResults f st.container, st)

/-- Facade `getAnalytics`. -/
def getAnalytics (f : FilterCriteria) (st : FacadeState) :
    Analytics × FacadeState :=
  match st.handle with
  | .localFs => (LocalStorage.getAnalytics f st.container, st)
  | .google => (GoogleDrive.getAnalytics f st.container, st)
  | .onedrive => (OneDrive.getAnalytics f st.container, st)

/-- Facade `searchTestResults`. -/
def searchTestResults (term : String) (st : FacadeState) :
    List ResultRecord × FacadeState :=
  match st.handle with
  | .localFs => (LocalStorage.searchTestResults term st.container, st)
  | .google => ((GoogleDrive.searchTestResults term st.container).1, st)
  | .onedrive => ((OneDrive.searchTestResults term st.container).1, st)

/-- Facade `cleanupOldResults`. -/
def cleanupOldResults (now : Millis) (daysToKeep : Nat)
    (deleteOk : List Char → Bool) (st : FacadeState) : Nat × FacadeState :=
  match st.handle with
  | .localFs =>
    let (c, s, _) := LocalStorage.cleanupOldResults now daysToKeep deleteOk st.container
    (c, { st with container := s })
  | .google =>
    let (c, s, _) := GoogleDrive.cleanupOldResults now daysToKeep deleteOk st.container
    (c, { st with container := s })
  | .onedrive =>
    let (c, s, _) := OneDrive.cleanupOldResults now daysToKeep deleteOk st.container
    (c, { st with container := s })

/-- Facade `getStorageInfo`. -/
def getStorageInfo (st : FacadeState) : StorageInfo × FacadeState :=
  match st.handle with
  | .localFs => (LocalStorage.getStorageInfo st.container, st)
  | .google => (GoogleDrive.getStorageInfo st.container, st)
  | .onedrive => (OneDrive.getStorageInfo st.container, st)

/-- Facade `getProviderInfo()`. -/
def getProviderInfo (st : FacadeState) : ProviderInfo × FacadeState :=
  ({ name := st.providerName
     type := if st.providerName = "local" then "local" else "cloud"
     description := getProviderDescription st.providerName }, st)

end Unified

/-! ## Lemmas about the descending sort. -/

theorem mem_insertK {k : α → Nat} {x a : α} {l : List α} :
    a ∈ insertK k x l ↔ a = x ∨ a ∈ l := by
  induction l with
  | nil => simp [insertK]
  | cons y ys ih =>
    by_cases h : k y ≤ k x
    · simp [insertK, h]
    · simp only [insertK, if_neg h, List.mem_cons, ih]
      tauto

theorem mem_sortK {k : α → Nat} {a : α} {l : List α} :
    a ∈ sortK k l ↔ a ∈ l := by
  induction l with
  | nil => simp [sortK]
  | cons y ys ih => simp [sortK, mem_insertK, ih]

theorem sortedDescBy_insertK {k : α → Nat} {x : α} {l : List α}
    (h : SortedDescBy k l) : SortedDescBy k (insertK k x l) := by
  induction l with
  | nil => simp [insertK, SortedDescBy]
  | cons y ys ih =>
    rcases (List.pairwise_cons.mp h) with ⟨hy, hys⟩
    by_cases hxy : k y ≤ k x
    · simp only [insertK, if_pos hxy]
      refine List.pairwise_cons.mpr ⟨?_, h⟩
      intro b hb
      rcases List.mem_cons.mp hb with rfl | hb
      · exact hxy
      · exact le_trans (hy b hb) hxy
    · simp only [insertK, if_neg hxy]
      refine List.pairwise_cons.mpr ⟨?_, ih hys⟩
      intro b hb
      rcases mem_insertK.mp hb with rfl | hb
      · exact Nat.le_of_lt (Nat.lt_of_not_le hxy)
      · exact hy b hb

theorem sortedDescBy_sortK {k : α → Nat} (l : List α) :
    SortedDescBy k (sortK k l) := by
  induction l with
  | nil => simp [sortK, SortedDescBy]
  | cons y ys ih => exact sortedDescBy_insertK ih

theorem map_insertK {k : α → Nat} {k' : β → Nat} {g : α → β} {x : α}
    {l : List α} (hx : k' (g x) = k x) (hl : ∀ a ∈ l, k' (g a) = k a) :
    (insertK k x l).map g = insertK k' (g x) (l.map g) := by
  induction l with
  | nil => simp [insertK]
  | cons y ys ih =>
    have hy : k' (g y) = k y := hl y (List.mem_cons_self y ys)
    have hys : ∀ a ∈ ys, k' (g a) = k a := fun a ha => hl a (List.mem_cons_of_mem y ha)
    by_cases h : k y ≤ k x
    · simp [insertK, h, hy, hx]
    · simp [insertK, h, hy, hx, ih hys]

theorem map_sortK {k : α → Nat} {k' : β → Nat} {g : α → β} {l : List α}
    (hl : ∀ a ∈ l, k' (g a) = k a) :
    (sortK k l).map g = sortK k' (l.map g) := by
  induction l with
  | nil => simp [sortK]
  | cons y ys ih =>
    have hy : k' (g y) = k y := hl y (List.mem_cons_self y ys)
    have hys : ∀ a ∈ ys, k' (g a) = k a := fun a ha => hl a (List.mem_cons_of_mem y ha)
    have hsort : ∀ a ∈ sortK k ys, k' (g a) = k a := fun a ha => hys a (mem_sortK.mp ha)
    simp only [sortK, List.map_cons, map_insertK hy hsort, ih hys]

theorem filterMap_insertK {k : α → Nat} {k' : β → Nat} {g : α → Option β}
    {x : α} {l : List α} (hsorted : SortedDescBy k l)
    (hl : ∀ a ∈ l, ∀ b, g a = some b → k' b = k a)
    (hx : ∀ b, g x = some b → k' b = k x) :
    (insertK k x l).filterMap g =
      (match g x with
       | some y => insertK k' y (l.filterMap g)
       | none => l.filterMap g) := by
  induction l with
  | nil =>
    cases hgx : g x <;> simp [insertK, List.filterMap, hgx]
  | cons z zs ih =>
    rcases List.pairwise_cons.mp hsorted with ⟨hz, hzs⟩
    have hzkey : ∀ b, g z = some b → k' b = k z := hl z (List.mem_cons_self z zs)
    have hzskey : ∀ a ∈ zs, ∀ b, g a = some b → k' b = k a :=
      fun a ha => hl a (List.mem_cons_of_mem z ha)
    by_cases h : k z ≤ k x
    · -- x is inserted at the front
      have hins : insertK k x (z :: zs) = x :: z :: zs := by
        simp [insertK, h]
      cases hgx : g x with
      | none =>
        rw [hins, List.filterMap_cons]
        simp only [hgx]
      | some y =>
        have hky : k' y = k x := hx y hgx
        -- every element of the filtered tail has key at most k x
        have hbound : ∀ b ∈ (z :: zs).filterMap g, k' b ≤ k x := by
          intro b hb
          rcases List.mem_filterMap.mp hb with ⟨a, ha, hab⟩
          rcases List.mem_cons.mp ha with rfl | ha
          · exact (hl a (List.mem_cons_self a zs) b hab) ▸ h
          · calc k' b = k a := hl a (List.mem_cons_of_mem z ha) b hab
              _ ≤ k z := hz a ha
              _ ≤ k x := h
        rw [hins, List.filterMap_cons]
        simp only [hgx]
        cases htail : (z :: zs).filterMap g with
        | nil => simp [insertK]
        | cons w ws =>
          have hw : k' w ≤ k' y := by
            rw [hky]
            exact hbound w (htail ▸ List.mem_cons_self w ws)
          simp [insertK, hw]
    · -- x sinks past z
      have hins : insertK k x (z :: zs) = z :: insertK k x zs := by
        simp [insertK, h]
      rw [hins, List.filterMap_cons, ih hzs hzskey]
      cases hgz : g z with
      | none =>
        simp only [hgz]
        rw [List.filterMap_cons]
        simp only [hgz]
      | some w =>
        simp only [hgz]
        rw [List.filterMap_cons]
        simp only [hgz]
        cases hgx : g x with
        | none => simp only [hgx]
        | some y =>
          simp only [hgx]
          have hwy : ¬ k' w ≤ k' y := by
            rw [hzkey w hgz, hx y hgx]; exact h
          simp [insertK, hwy]

theorem filterMap_sortK {k : α → Nat} {k' : β → Nat} {g : α → Option β}
    {l : List α} (hl : ∀ a ∈ l, ∀ b, g a = some b → k' b = k a) :
    (sortK k l).filterMap g = sortK k' (l.filterMap g) := by
  induction l with
  | nil => simp [sortK]
  | cons y ys ih =>
    have hy : ∀ b, g y = some b → k' b = k y := hl y (List.mem_cons_self y ys)
    have hys : ∀ a ∈ ys, ∀ b, g a = some b → k' b = k a :=
      fun a ha => hl a (List.mem_cons_of_mem y ha)
    have hsortkey : ∀ a ∈ sortK k ys, ∀ b, g a = some b → k' b = k a :=
      fun a ha => hys a (mem_sortK.mp ha)
    have hstep := filterMap_insertK (sortedDescBy_sortK ys) hsortkey hy
    simp only [sortK]
    rw [hstep]
    cases hgy : g y with
    | none =>
      simp only [hgy]
      rw [List.filterMap_cons]
      simp only [hgy, ih hys]
    | some v =>
      simp only [hgy]
      rw [List.filterMap_cons]
      simp only [hgy]
      simp only [sortK]
      rw [ih hys]

/-! ## Characterizations of the scan loops. -/

/-- One step of the local scan, as a partial extraction. -/
def localExtract (f : FilterCriteria) (o : StoredObject) : Option ResultRecord :=
  if hasJsonExt o.name then
    match o.content with
    | .corrupt => none
    | .valid r =>
      if LocalStorage.keep f r then
        some { record := r, fileId := String.mk o.name, fileName := o.name,
               createdTime := r.created_at }
      else none
  else none

/-- Warning extraction: the name of a `.json` file whose body fails to
parse. -/
def corruptJsonName (o : StoredObject) : Option (List Char) :=
  if hasJsonExt o.name then
    match o.content with
    | .corrupt => some o.name
    | .valid _ => none
  else none

theorem scan_fst (f : FilterCriteria) (store : List StoredObject) :
    (LocalStorage.scan f store).1 = store.filterMap (localExtract f) := by
  induction store with
  | nil => rfl
  | cons o rest ih =>
    simp only [LocalStorage.scan, List.filterMap_cons, localExtract]
    by_cases hj : hasJsonExt o.name
    · cases hc : o.content with
      | corrupt => simp [hj, hc, ih]
      | valid r =>
        by_cases hk : LocalStorage.keep f r <;> simp [hj, hc, hk, ih]
    · simp [hj, ih]

theorem scan_snd (f : FilterCriteria) (store : List StoredObject) :
    (LocalStorage.scan f store).2 = store.filterMap corruptJsonName := by
  induction store with
  | nil => rfl
  | cons o rest ih =>
    simp only [LocalStorage.scan, List.filterMap_cons, corruptJsonName]
    by_cases hj : hasJsonExt o.name
    · cases hc : o.content with
      | corrupt => simp [hj, hc, ih]
      | valid r =>
        by_cases hk : LocalStorage.keep f r <;> simp [hj, hc, hk, ih]
    · simp [hj, ih]

/-- One step of the cloud download-and-parse loop. -/
def parseExtract (o : StoredObject) : Option ResultRecord :=
  match o.content with
  | .corrupt => none
  | .valid r =>
    some { record := r, fileId := o.id, fileName := o.name,
           createdTime := o.createdTime }

/-- The name of any stored object whose body fails to parse. -/
def corruptName (o : StoredObject) : Option (List Char) :=
  match o.content with
  | .corrupt => some o.name
  | .valid _ => none

theorem downloadAndParse_fst (l : List StoredObject) :
    (downloadAndParse l).1 = l.filterMap parseExtract := by
  induction l with
  | nil => rfl
  | cons o rest ih =>
    simp only [downloadAndParse, List.filterMap_cons, parseExtract]
    cases hc : o.content <;> simp [hc, ih]

theorem downloadAndParse_snd (l : List StoredObject) :
    (downloadAndParse l).2 = l.filterMap corruptName := by
  induction l with
  | nil => rfl
  | cons o rest ih =>
    simp only [downloadAndParse, List.filterMap_cons, corruptName]
    cases hc : o.content <;> simp [hc, ih]

/-! ## The canonical filtered record list and well-formed stores. -/

/-- The record-level content a full-surface-except-search filter pass
retains from one stored object. -/
def recExtract (f : FilterCriteria) (o : StoredObject) : Option TestRecord :=
  if hasJsonExt o.name then
    match o.content with
    | .corrupt => none
    | .valid r => if LocalStorage.keep f r then some r else none
  else none

/-- The canonical result of `getTestResults`: the parsable records
that survive the date/status/teamMember/project criteria, sorted
newest-`created_at`-first. -/
def canonicalResults (f : FilterCriteria) (store : List StoredObject) :
    List TestRecord :=
  sortK (fun r => r.created_at) (store.filterMap (recExtract f))

/-- A stored object is well formed when its provider-side metadata
agrees with its parsable body: `.json` name, JSON mime type, creation
time equal to the record's `created_at`, and the indexable properties
equal to the record's fields.  Objects written by the adapters'
`storeTestResult` satisfy the parts their own adapter consults;
corrupt bodies are unconstrained. -/
def WellFormed (o : StoredObject) : Prop :=
  ∀ r, o.content = .valid r →
    hasJsonExt o.name = true ∧ o.mimeJson = true ∧
    o.createdTime = r.created_at ∧ o.propStatus = r.status ∧
    o.propTeamMember = r.team_member_name ∧ o.propProject = r.project_name

/-- Body-only parse (used to compare record-level outputs). -/
def parseRec (o : StoredObject) : Option TestRecord :=
  match o.content with
  | .corrupt => none
  | .valid r => some r

/-- OneDrive's residual pass, at the record level. -/
def residualRec (f : FilterCriteria) (r : TestRecord) : Bool :=
  (match f.status with | none => true | some s => r.status == s) &&
  (match f.teamMember with | none => true | some t => r.team_member_name == t) &&
  (match f.project with | none => true | some p => r.project_name == p)

theorem localExtract_time {f : FilterCriteria} {o : StoredObject}
    {x : ResultRecord} (h : localExtract f o = some x) :
    x.record.created_at = x.createdTime := by
  by_cases hj : hasJsonExt o.name
  · cases hc : o.content with
    | corrupt => simp [localExtract, hj, hc] at h
    | valid r =>
      by_cases hk : LocalStorage.keep f r
      · simp [localExtract, hj, hc, hk] at h
        subst h; rfl
      · simp [localExtract, hj, hc, hk] at h
  · simp [localExtract, hj] at h

theorem parseExtract_time {o : StoredObject} {x : ResultRecord}
    (h : parseExtract o = some x) : x.createdTime = o.createdTime := by
  cases hc : o.content with
  | corrupt => simp [parseExtract, hc] at h
  | valid r =>
    simp [parseExtract, hc] at h
    subst h; rfl

theorem ite_and_none {a b : Bool} {x : Option γ} :
    (if a then (if b then x else none) else none) = if a && b then x else none := by
  cases a <;> simp

/-- The local `getTestResults`, at the record level, is the canonical
filtered list. -/
theorem local_records (f : FilterCriteria) (store : List StoredObject) :
    ((LocalStorage.getTestResults f store).1).map (fun x => x.record) =
      canonicalResults f store := by
  have h1 : (LocalStorage.getTestResults f store).1 =
      sortK (fun x => x.createdTime) (store.filterMap (localExtract f)) := by
    simp [LocalStorage.getTestResults, scan_fst]
  have hkey : ∀ x ∈ store.filterMap (localExtract f),
      x.record.created_at = x.createdTime := by
    intro x hx
    rcases List.mem_filterMap.mp hx with ⟨o, _, ho⟩
    exact localExtract_time ho
  have hms : (sortK (fun x : ResultRecord => x.createdTime)
        (store.filterMap (localExtract f))).map (fun x => x.record) =
      sortK (fun r : TestRecord => r.created_at)
        ((store.filterMap (localExtract f)).map (fun x => x.record)) :=
    map_sortK hkey
  rw [h1, hms, List.map_filterMap]
  have h2 : ∀ o ∈ store,
      (localExtract f o).map (fun x => x.record) = recExtract f o := by
    intro o _
    by_cases hj : hasJsonExt o.name
    · cases hc : o.content with
      | corrupt => simp [localExtract, recExtract, hj, hc]
      | valid r =>
        by_cases hk : LocalStorage.keep f r <;>
          simp [localExtract, recExtract, hj, hc, hk]
    · simp [localExtract, recExtract, hj]
  rw [List.filterMap_congr h2]
  rfl

/-- The Google Drive `getTestResults`, at the record level, is the
canonical filtered list on any well-formed store. -/
theorem google_records (f : FilterCriteria) (store : List StoredObject)
    (hWF : ∀ o ∈ store, WellFormed o) :
    ((GoogleDrive.getTestResults f store).1).map (fun x => x.record) =
      canonicalResults f store := by
  have h1 : (GoogleDrive.getTestResults f store).1 =
      (sortK (fun o => o.createdTime)
        (store.filter (GoogleDrive.nativeKeep f))).filterMap parseExtract := by
    simp [GoogleDrive.getTestResults, downloadAndParse_fst]
  rw [h1, List.map_filterMap]
  have h2 : ∀ o ∈ sortK (fun o : StoredObject => o.createdTime)
      (store.filter (GoogleDrive.nativeKeep f)),
      (parseExtract o).map (fun x => x.record) = parseRec o := by
    intro o _
    cases hc : o.content <;> simp [parseExtract, parseRec, hc]
  rw [List.filterMap_congr h2]
  have hkey : ∀ o ∈ store.filter (GoogleDrive.nativeKeep f),
      ∀ r : TestRecord, parseRec o = some r → r.created_at = o.createdTime := by
    intro o ho r hr
    cases hc : o.content with
    | corrupt => simp [parseRec, hc] at hr
    | valid r' =>
      simp only [parseRec, hc, Option.some.injEq] at hr
      cases hr
      exact ((hWF o (List.mem_of_mem_filter ho)) _ hc).2.2.1.symm
  have hfs : (sortK (fun o : StoredObject => o.createdTime)
        (store.filter (GoogleDrive.nativeKeep f))).filterMap parseRec =
      sortK (fun r : TestRecord => r.created_at)
        ((store.filter (GoogleDrive.nativeKeep f)).filterMap parseRec) :=
    filterMap_sortK hkey
  rw [hfs, List.filterMap_filter]
  have h3 : ∀ o ∈ store,
      (if GoogleDrive.nativeKeep f o then parseRec o else none) =
        recExtract f o := by
    intro o ho
    cases hc : o.content with
    | corrupt => simp [parseRec, recExtract, hc]
    | valid r =>
      obtain ⟨hj, hm, ht, hs, htm, hp⟩ := hWF o ho r hc
      have hnk : GoogleDrive.nativeKeep f o = LocalStorage.keep f r := by
        simp [GoogleDrive.nativeKeep, LocalStorage.keep, hm, ht, hs, htm, hp]
      simp [parseRec, recExtract, hc, hj, hnk]
  rw [List.filterMap_congr h3]
  rfl

/-- Record-level extraction used in the OneDrive characterization:
parse, then the residual pass. -/
def odExtract (f : FilterCriteria) (o : StoredObject) : Option TestRecord :=
  match o.content with
  | .corrupt => none
  | .valid r => if residualRec f r then some r else none

/-- The OneDrive `getTestResults`, at the record level, is the
canonical filtered list on any well-formed store. -/
theorem onedrive_records (f : FilterCriteria) (store : List StoredObject)
    (hWF : ∀ o ∈ store, WellFormed o) :
    ((OneDrive.getTestResults f store).1).map (fun x => x.record) =
      canonicalResults f store := by
  have h1 : (OneDrive.getTestResults f store).1 =
      ((sortK (fun o => o.createdTime)
        (store.filter (OneDrive.nativeKeep f))).filterMap parseExtract).filter
          (OneDrive.residual f) := by
    simp [OneDrive.getTestResults, downloadAndParse_fst]
  rw [h1, List.filter_filterMap, List.map_filterMap]
  have h2 : ∀ o ∈ sortK (fun o : StoredObject => o.createdTime)
      (store.filter (OneDrive.nativeKeep f)),
      ((parseExtract o).filter (OneDrive.residual f)).map (fun x => x.record) =
        odExtract f o := by
    intro o _
    cases hc : o.content with
    | corrupt => simp [parseExtract, odExtract, hc]
    | valid r =>
      have hrr : OneDrive.residual f
          { record := r, fileId := o.id, fileName := o.name,
            createdTime := o.createdTime } = residualRec f r := rfl
      cases hres : residualRec f r <;>
        simp [parseExtract, odExtract, hc, Option.filter, hrr, hres]
  rw [List.filterMap_congr h2]
  have hkey : ∀ o ∈ store.filter (OneDrive.nativeKeep f),
      ∀ r : TestRecord, odExtract f o = some r →
        r.created_at = o.createdTime := by
    intro o ho r hr
    cases hc : o.content with
    | corrupt => simp [odExtract, hc] at hr
    | valid r' =>
      simp only [odExtract, hc] at hr
      by_cases hres : residualRec f r'
      · rw [if_pos hres, Option.some.injEq] at hr
        cases hr
        exact ((hWF o (List.mem_of_mem_filter ho)) _ hc).2.2.1.symm
      · rw [if_neg hres] at hr
        cases hr
  have hfs : (sortK (fun o : StoredObject => o.createdTime)
        (store.filter (OneDrive.nativeKeep f))).filterMap (odExtract f) =
      sortK (fun r : TestRecord => r.created_at)
        ((store.filter (OneDrive.nativeKeep f)).filterMap (odExtract f)) :=
    filterMap_sortK hkey
  rw [hfs, List.filterMap_filter]
  have h3 : ∀ o ∈ store,
      (if OneDrive.nativeKeep f o then odExtract f o else none) =
        recExtract f o := by
    intro o ho
    cases hc : o.content with
    | corrupt => simp [odExtract, recExtract, hc]
    | valid r =>
      obtain ⟨hj, _, ht, _, _, _⟩ := hWF o ho r hc
      have hb : (OneDrive.nativeKeep f o && residualRec f r) =
          LocalStorage.keep f r := by
        simp [OneDrive.nativeKeep, residualRec, LocalStorage.keep, ht,
          Bool.and_assoc]
      simp only [odExtract, hc, ite_and_none, hb, recExtract, hj, if_true]
  rw [List.filterMap_congr h3]
  rfl

/-! ## Further helper lemmas. -/

theorem endsWith_append (pre s : List Char) : endsWith (pre ++ s) s = true := by
  unfold endsWith
  have h : (pre ++ s).length - s.length = pre.length := by
    simp [List.length_append]
  rw [h, List.drop_left]
  simp

theorem resultFileName_json (now : Millis) (r : TestRecord) :
    hasJsonExt (resultFileName now r) = true := by
  unfold hasJsonExt resultFileName
  exact endsWith_append _ _

theorem keep_emptyFilter (r : TestRecord) : LocalStorage.keep emptyFilter r = true := rfl

theorem localExtract_content {f : FilterCriteria} {o : StoredObject}
    {x : ResultRecord} (h : localExtract f o = some x) :
    o.content = .valid x.record := by
  by_cases hj : hasJsonExt o.name
  · cases hc : o.content with
    | corrupt => simp [localExtract, hj, hc] at h
    | valid r =>
      by_cases hk : LocalStorage.keep f r
      · simp [localExtract, hj, hc, hk] at h
        subst h; rfl
      · simp [localExtract, hj, hc, hk] at h
  · simp [localExtract, hj] at h

/-- Whether the local cleanup deletes a stored object when every
deletion succeeds: a `.json` file with a parsable body older than the
cutoff. -/
def localDeletable (now : Millis) (daysToKeep : Nat) (o : StoredObject) : Bool :=
  hasJsonExt o.name &&
    (match o.content with
     | .corrupt => false
     | .valid r => decide (r.created_at < now - daysToKeep * msPerDay))

/-- The local cleanup deletes exactly the old parsable `.json` files
whose deletion succeeds, counts them, and keeps everything else
(a failed deletion does not abort the rest of the loop). -/
theorem local_cleanup_spec (now : Millis) (d : Nat)
    (deleteOk : List Char → Bool) (store : List StoredObject) :
    (LocalStorage.cleanupOldResults now d deleteOk store).1 =
      (store.filter (fun o => localDeletable now d o && deleteOk o.name)).length ∧
    (LocalStorage.cleanupOldResults now d deleteOk store).2.1 =
      store.filter (fun o => !(localDeletable now d o && deleteOk o.name)) := by
  induction store with
  | nil => exact ⟨rfl, rfl⟩
  | cons o rest ih =>
    obtain ⟨ih1, ih2⟩ := ih
    by_cases hj : hasJsonExt o.name
    · cases hc : o.content with
      | corrupt =>
        constructor <;>
          simp [LocalStorage.cleanupOldResults, localDeletable, hj, hc, ih1, ih2]
      | valid r =>
        by_cases hold : r.created_at < now - d * msPerDay
        · by_cases hdel : deleteOk o.name
          · constructor <;>
              simp [LocalStorage.cleanupOldResults, localDeletable, hj, hc,
                hold, hdel, ih1, ih2]
          · constructor <;>
              simp [LocalStorage.cleanupOldResults, localDeletable, hj, hc,
                hold, hdel, ih1, ih2]
        · constructor <;>
            simp [LocalStorage.cleanupOldResults, localDeletable, hj, hc,
              hold, ih1, ih2]
    · constructor <;>
        simp [LocalStorage.cleanupOldResults, localDeletable, hj, ih1, ih2]

/-- The rounded success rate, in hundredths of a percent, is within
half a unit of the exact value `passed * 10000 / total`. -/
theorem successRate_bound (p n : Nat) (hn : 0 < n) :
    |(((2 * p * 10000 + n) / (2 * n) : Nat) : ℚ) -
      (p : ℚ) * 10000 / (n : ℚ)| ≤ 1 / 2 := by
  have hb2 : 0 < 2 * n := by omega
  have hdm := Nat.div_add_mod (2 * p * 10000 + n) (2 * n)
  have hmlt := Nat.mod_lt (2 * p * 10000 + n) hb2
  have h1 : 2 * n * ((2 * p * 10000 + n) / (2 * n)) ≤ 2 * p * 10000 + n := by
    omega
  have h2 : 2 * p * 10000 + n <
      2 * n * ((2 * p * 10000 + n) / (2 * n)) + 2 * n := by
    omega
  generalize (2 * p * 10000 + n) / (2 * n) = q at h1 h2 ⊢
  have hnq : (0 : ℚ) < (n : ℚ) := by exact_mod_cast hn
  have h1' : 2 * (n : ℚ) * (q : ℚ) ≤ 2 * (p : ℚ) * 10000 + (n : ℚ) := by
    exact_mod_cast h1
  have h2' : 2 * (p : ℚ) * 10000 + (n : ℚ) < 2 * (n : ℚ) * (q : ℚ) + 2 * (n : ℚ) := by
    exact_mod_cast h2
  have hx : (p : ℚ) * 10000 / (n : ℚ) * (n : ℚ) = (p : ℚ) * 10000 :=
    div_mul_cancel₀ _ (ne_of_gt hnq)
  rw [abs_sub_le_iff]
  constructor
  · nlinarith [hx, hnq, h1']
  · nlinarith [hx, hnq, h2']

/-! ## Concrete fixtures for witnesses and counterexamples. -/

/-- A stored object as an adapter's own `storeTestResult` writes it
(metadata agreeing with the body). -/
def wfObject (r : TestRecord) : StoredObject :=
  { id := String.mk (resultFileName r.created_at r)
    name := resultFileName r.created_at r
    createdTime := r.created_at
    mimeJson := true
    content := .valid r
    propStatus := r.status
    propTeamMember := r.team_member_name
    propProject := r.project_name
    size := 0 }

theorem wfObject_wellFormed (r : TestRecord) : WellFormed (wfObject r) := by
  intro r' h
  cases h
  exact ⟨resultFileName_json _ _, rfl, rfl, rfl, rfl, rfl⟩

theorem corrupt_wellFormed (o : StoredObject) (h : o.content = .corrupt) :
    WellFormed o := by
  intro r hr
  rw [h] at hr
  cases hr

def recLogin : TestRecord :=
  { test_name := "Login Test", status := "passed", execution_time := 10,
    framework := "jest", team_member_name := "alice",
    project_name := "checkout", environment := "ci", created_at := 4000,
    metadata := [] }

def recPay : TestRecord :=
  { test_name := "Payment Flow", status := "passed", execution_time := 10,
    framework := "jest", team_member_name := "alice",
    project_name := "checkout", environment := "ci", created_at := 1000,
    metadata := [] }

def recFail : TestRecord :=
  { recPay with test_name := "Cart Test", status := "failed", created_at := 2000 }

def recSkip : TestRecord :=
  { recPay with test_name := "Search Test", status := "skipped", created_at := 3000 }

/-- Four records with statuses passed, failed, skipped, passed stored
through the local adapter (the C5 scenario store). -/
def scenarioStore5 : List StoredObject :=
  (LocalStorage.storeTestResult
    ((LocalStorage.storeTestResult
      ((LocalStorage.storeTestResult
        ((LocalStorage.storeTestResult [] 1000 recPay).2) 2000 recFail).2)
        3000 recSkip).2) 4000 recLogin).2

/-- A stored object with a body `JSON.parse` rejects. -/
def corruptObj : StoredObject :=
  { id := "bad", name := "bad.json".data, createdTime := 5, mimeJson := true,
    content := .corrupt, propStatus := "", propTeamMember := "",
    propProject := "", size := 0 }

def recOld : TestRecord :=
  { recPay with test_name := "Old Test", created_at := 100 * msPerDay }

def recOldB : TestRecord :=
  { recPay with test_name := "Old B", created_at := 99 * msPerDay }

def recToday : TestRecord :=
  { recPay with test_name := "Today Test", created_at := 200 * msPerDay }

/-- One record from 100 days before `now = 200 days` and one from
today (the C8 scenario store). -/
def store8 : List StoredObject := [wfObject recOld, wfObject recToday]

/-- Two old records (the C8 partial-failure scenario store). -/
def store8b : List StoredObject := [wfObject recOld, wfObject recOldB]

/-- A deletion oracle that fails exactly on `recOld`'s file. -/
def failOnOld : List Char → Bool :=
  fun n => !(n == (wfObject recOld).name)

/-- `{ searchTerm: 'login' }` and nothing else. -/
def searchOnlyFilter : FilterCriteria :=
  { startDate := none, endDate := none, status := none, teamMember := none,
    project := none, searchTerm := some "login" }

/-- A record whose `created_at` (1000) is earlier than the moment it
is uploaded. -/
def recLate : TestRecord :=
  { recPay with test_name := "Late Upload", created_at := 1000 }

/-- `recLate` as stored by an adapter at upload time 5000: the
provider-side creation time (5000) differs from the record's
`created_at` (1000) — exactly what the spec's own
store-a-100-days-old-record scenario produces. -/
def lateObj : StoredObject :=
  { wfObject recLate with createdTime := 5000 }

/-- `{ startDate: 2000 }` and nothing else. -/
def lateFilter : FilterCriteria :=
  { startDate := some 2000, endDate := none, status := none,
    teamMember := none, project := none, searchTerm := none }

/-- An environment with no explicit provider, no cloud credentials and
both cloud initializations failing. -/
def envNoCloud : Env :=
  { storageProvider := none, googleCreds := false, oneDriveCreds := false,
    googleInitOk := false, oneDriveInitOk := false }

/-- Spec-side definition (claim C3's wording): the full FilterCriteria
surface, including the free-text `searchTerm` applied as a
case-insensitive substring match over test name, team member and
project name. -/
def specFullCriteriaMatches (f : FilterCriteria) (r : TestRecord) : Bool :=
  LocalStorage.keep f r &&
    (match f.searchTerm with
     | none => true
     | some t => matchesTerm t r)

/-! ## Claim theorems. -/

/-- C1: when the implicit startup initialization runs with no explicit
provider configured and no cloud credentials present, or when the
selected cloud adapter's initialization fails, the active provider
ends up being the local-filesystem adapter (the failure is swallowed:
`startupInit` is total and returns a state, never an error), and a
`storeTestResult` / `getTestResults` round-trip against that local
adapter returns the stored record. -/
theorem c1_startup_fallback_roundtrip (env : Env) (now : Millis)
    (r : TestRecord)
    (h : (env.storageProvider = none ∧ env.googleCreds = false ∧
          env.oneDriveCreds = false) ∨
         (selectProviderName env = "google-drive" ∧ env.googleInitOk = false) ∨
         (selectProviderName env = "onedrive" ∧ env.oneDriveInitOk = false)) :
    startupInit env = ("local", ProviderHandle.localFs) ∧
    ((LocalStorage.getTestResults emptyFilter
        (LocalStorage.storeTestResult [] now r).2).1).map (fun x => x.record) =
      [r] := by
  constructor
  · rcases h with ⟨h1, h2, h3⟩ | ⟨h1, h2⟩ | ⟨h1, h2⟩
    · simp [startupInit, selectProviderName, initializeProvider, h1, h2, h3]
    · simp [startupInit, initializeProvider, h1, h2]
    · simp [startupInit, initializeProvider, h1, h2]
  · have hname : hasJsonExt (resultFileName now r) = true :=
      resultFileName_json now r
    simp [LocalStorage.storeTestResult, LocalStorage.getTestResults,
      LocalStorage.scan, LocalStorage.keep, emptyFilter, hname, sortK, insertK]

/-- Witness for C1: the all-empty environment falls back to local and
the round-trip succeeds for a concrete record. -/
theorem c1_startup_fallback_roundtrip_witness :
    startupInit envNoCloud = ("local", ProviderHandle.localFs) ∧
    ((LocalStorage.getTestResults emptyFilter
        (LocalStorage.storeTestResult [] 42 recLogin).2).1).map
      (fun x => x.record) = [recLogin] :=
  c1_startup_fallback_roundtrip envNoCloud 42 recLogin (Or.inl ⟨rfl, rfl, rfl⟩)

/-- C2 counterexample: with the previous provider state `onedrive` and
a switch to `google-drive` whose initialization fails, `switchProvider`
returns `true` (not `false`) and replaces the previous state with the
local-filesystem fallback — contradicting the claim that the previous
state is left unchanged, that the call returns `false`, and that no
automatic fallback happens on an explicit switch. -/
theorem c2_counterexample :
    switchProvider envNoCloud ("onedrive", ProviderHandle.onedrive)
        "google-drive" = (true, ("local", ProviderHandle.localFs)) ∧
    (switchProvider envNoCloud ("onedrive", ProviderHandle.onedrive)
        "google-drive").2 ≠ ("onedrive", ProviderHandle.onedrive) := by
  decide

/-- C2 (amended): a `switchProvider` call whose target provider fails
to initialize (or is an unsupported name) returns `true` and silently
falls back to the local-filesystem adapter, overwriting the previous
provider state; it never returns `false` in these cases. -/
theorem c2_switch_fallback (env : Env) (st : String × ProviderHandle)
    (name : String)
    (h : (strToLower name = "google-drive" ∧ env.googleInitOk = false) ∨
         (strToLower name = "onedrive" ∧ env.oneDriveInitOk = false) ∨
         (strToLower name ≠ "google-drive" ∧ strToLower name ≠ "onedrive" ∧
          strToLower name ≠ "local")) :
    switchProvider env st name = (true, ("local", ProviderHandle.localFs)) := by
  rcases h with ⟨h1, h2⟩ | ⟨h1, h2⟩ | ⟨h1, h2, h3⟩
  · simp [switchProvider, initializeProvider, h1, h2]
  · simp [switchProvider, initializeProvider, h1, h2]
  · simp [switchProvider, initializeProvider, h1, h2, h3]

/-- Witness for the amended C2 at a concrete failed switch. -/
theorem c2_switch_fallback_witness :
    switchProvider envNoCloud ("onedrive", ProviderHandle.onedrive)
      "google-drive" = (true, ("local", ProviderHandle.localFs)) :=
  c2_switch_fallback envNoCloud ("onedrive", ProviderHandle.onedrive)
    "google-drive" (Or.inl ⟨by decide, rfl⟩)

/-- C9 counterexample: the local adapter's persisted body is not the
bare record — it carries the provider-specific `storedAt` and
`storageType` fields, so the persisted shape is not identical across
the three providers. -/
theorem c9_counterexample :
    (localFileBody recPay "2025-01-01T00:00:00Z" ≠ googleFileBody recPay) ∧
    (localFileBody recPay "2025-01-01T00:00:00Z").extras ≠ [] := by
  decide

/-- C9 (amended): Google Drive and OneDrive persist exactly the
record's fields (their bodies agree), while the local adapter persists
the record's fields plus the two extra fields `storedAt` and
`storageType: 'local'`. -/
theorem c9_wire_format (r : TestRecord) (storedAt : String) :
    googleFileBody r = ⟨r, []⟩ ∧
    oneDriveFileBody r = googleFileBody r ∧
    (localFileBody r storedAt).record = r ∧
    (localFileBody r storedAt).extras =
      [("storedAt", storedAt), ("storageType", "local")] :=
  ⟨rfl, rfl, rfl, rfl⟩

/-- C10: every forwarding operation of the facade leaves the active
provider name and the adapter handle unchanged (the read-only ones
leave the whole facade state unchanged); only the initialization and
switch routines write those fields. -/
theorem c10_forwarding_frame (st : FacadeState) (now : Millis)
    (r : TestRecord) (f g : FilterCriteria) (term : String) (d : Nat)
    (deleteOk : List Char → Bool) :
    ((Unified.storeTestResult now r st).2.providerName = st.providerName ∧
     (Unified.storeTestResult now r st).2.handle = st.handle) ∧
    (Unified.getTestResults f st).2 = st ∧
    (Unified.getAnalytics g st).2 = st ∧
    (Unified.searchTestResults term st).2 = st ∧
    ((Unified.cleanupOldResults now d deleteOk st).2.providerName =
        st.providerName ∧
     (Unified.cleanupOldResults now d deleteOk st).2.handle = st.handle) ∧
    (Unified.getStorageInfo st).2 = st ∧
    (Unified.getProviderInfo st).2 = st := by
  obtain ⟨pn, h, c⟩ := st
  refine ⟨?_, ?_, ?_, ?_, ?_, ?_, ?_⟩
  · cases h <;> exact ⟨rfl, rfl⟩
  · cases h <;> rfl
  · cases h <;> rfl
  · cases h <;> rfl
  · cases h with
    | localFs =>
      rcases hcl : LocalStorage.cleanupOldResults now d deleteOk c
        with ⟨cnt, s, w⟩
      exact ⟨by simp [Unified.cleanupOldResults, hcl],
             by simp [Unified.cleanupOldResults, hcl]⟩
    | google =>
      rcases hcl : GoogleDrive.cleanupOldResults now d deleteOk c
        with ⟨cnt, s, w⟩
      exact ⟨by simp [Unified.cleanupOldResults, hcl],
             by simp [Unified.cleanupOldResults, hcl]⟩
    | onedrive =>
      rcases hcl : OneDrive.cleanupOldResults now d deleteOk c
        with ⟨cnt, s, w⟩
      exact ⟨by simp [Unified.cleanupOldResults, hcl],
             by simp [Unified.cleanupOldResults, hcl]⟩
  · cases h <;> rfl
  · cases h <;> rfl

/-- C3 counterexample, in two parts.  First, with criteria
`{searchTerm: 'login'}` the local adapter's `getTestResults` returns
the stored "Payment Flow" record although the
full-FilterCriteria-surface predicate (including the free-text
`searchTerm`) rejects it — `getTestResults` never applies `searchTerm`
in any adapter.  Second, the adapters do not all return the same
record set: on a record whose `created_at` (1000) precedes its upload
time (5000), the criteria `{startDate: 2000}` exclude it in the local
adapter (which filters on the parsed `created_at`) but include it in
OneDrive (which filters natively on the provider-side creation time),
so the claim's every-record-set agreement also fails. -/
theorem c3_counterexample :
    (((LocalStorage.getTestResults searchOnlyFilter [wfObject recPay]).1).map
        (fun x => x.record) = [recPay] ∧
     specFullCriteriaMatches searchOnlyFilter recPay = false) ∧
    (((LocalStorage.getTestResults lateFilter [lateObj]).1).map
        (fun x => x.record) = [] ∧
     ((OneDrive.getTestResults lateFilter [lateObj]).1).map
        (fun x => x.record) = [recLate]) := by
  decide

/-- C3 (amended): the three adapters' `getTestResults` apply the same
startDate/endDate/status/teamMember/project criteria (natively or in a
residual in-memory pass) — `searchTerm` is ignored by all of them (the
canonical result does not depend on it) — and they return the same
record list, newest-first, exactly on well-formed stores: those whose
provider-side creation time and indexable properties agree with the
record body.  Both restrictions are forced by `c3_counterexample`:
`searchTerm` never filters, and on an object uploaded later than its
`created_at` the cloud adapters' date filtering (on provider creation
time) diverges from the local adapter's (on `created_at`). -/
theorem c3_adapters_agree (f : FilterCriteria) (store : List StoredObject)
    (hWF : ∀ o ∈ store, WellFormed o) :
    ((LocalStorage.getTestResults f store).1).map (fun x => x.record) =
      canonicalResults f store ∧
    ((GoogleDrive.getTestResults f store).1).map (fun x => x.record) =
      canonicalResults f store ∧
    ((OneDrive.getTestResults f store).1).map (fun x => x.record) =
      canonicalResults f store ∧
    canonicalResults f store =
      canonicalResults { f with searchTerm := none } store :=
  ⟨local_records f store, google_records f store hWF,
   onedrive_records f store hWF, rfl⟩

/-- Witness for the amended C3 on a concrete well-formed store with a
corrupt object present. -/
theorem c3_adapters_agree_witness :
    ((LocalStorage.getTestResults searchOnlyFilter
        [wfObject recPay, corruptObj]).1).map (fun x => x.record) =
      canonicalResults searchOnlyFilter [wfObject recPay, corruptObj] :=
  (c3_adapters_agree searchOnlyFilter [wfObject recPay, corruptObj]
    (by
      intro o ho
      rcases List.mem_cons.mp ho with rfl | ho
      · exact wfObject_wellFormed recPay
      · rcases List.mem_cons.mp ho with rfl | ho
        · exact corrupt_wellFormed _ rfl
        · cases ho)).1

/-- C4: aggregating an empty record list yields zero counts, zero
success rate, zero average execution time and empty distinct lists —
in every adapter, with no error. -/
theorem c4_empty_analytics (f : FilterCriteria) :
    computeAnalytics [] =
      { totalTests := 0, passedTests := 0, failedTests := 0,
        skippedTests := 0, blockedTests := 0, successRateCenti := 0,
        frameworks := [], projects := [], teamMembers := [],
        avgExecutionTime := 0 } ∧
    LocalStorage.getAnalytics f [] = computeAnalytics [] ∧
    GoogleDrive.getAnalytics f [] = computeAnalytics [] ∧
    OneDrive.getAnalytics f [] = computeAnalytics [] :=
  ⟨rfl, rfl, rfl, rfl⟩

/-- C5: for a non-empty record list the reported success rate (in
hundredths of a percent, the value rendered by `toFixed(2)`) is the
exact ratio `passed/total × 100` to two decimal places (within half a
unit of the last decimal); and the four-record scenario store with
statuses passed, passed, failed, skipped yields totals (4, 2, 1, 1)
and a success rate of 50.00. -/
theorem c5_success_rate (results : List ResultRecord) (h : results ≠ []) :
    |(((computeAnalytics results).successRateCenti : ℚ)) -
        ((computeAnalytics results).passedTests : ℚ) * 10000 /
          ((computeAnalytics results).totalTests : ℚ)| ≤ 1 / 2 ∧
    LocalStorage.getAnalytics emptyFilter scenarioStore5 =
      { totalTests := 4, passedTests := 2, failedTests := 1,
        skippedTests := 1, blockedTests := 0, successRateCenti := 5000,
        frameworks := ["jest"], projects := ["checkout"],
        teamMembers := ["alice"], avgExecutionTime := 10 } := by
  constructor
  · have hn : 0 < results.length := List.length_pos.mpr h
    have hb := successRate_bound
      ((results.filter (fun x => x.record.status == "passed")).length)
      results.length hn
    have h1 : (computeAnalytics results).successRateCenti =
        (2 * (results.filter (fun x => x.record.status == "passed")).length *
          10000 + results.length) / (2 * results.length) := by
      simp [computeAnalytics, hn]
    have h2 : (computeAnalytics results).passedTests =
        (results.filter (fun x => x.record.status == "passed")).length := rfl
    have h3 : (computeAnalytics results).totalTests = results.length := rfl
    rw [h1, h2, h3]
    exact hb
  · decide

/-- Witness for C5 at the scenario store's own result list. -/
theorem c5_success_rate_witness :
    |(((computeAnalytics
          ((LocalStorage.getTestResults emptyFilter scenarioStore5).1)).successRateCenti : ℚ)) -
        ((computeAnalytics
          ((LocalStorage.getTestResults emptyFilter scenarioStore5).1)).passedTests : ℚ) *
          10000 /
          ((computeAnalytics
            ((LocalStorage.getTestResults emptyFilter scenarioStore5).1)).totalTests : ℚ)| ≤
      1 / 2 ∧
    LocalStorage.getAnalytics emptyFilter scenarioStore5 =
      { totalTests := 4, passedTests := 2, failedTests := 1,
        skippedTests := 1, blockedTests := 0, successRateCenti := 5000,
        frameworks := ["jest"], projects := ["checkout"],
        teamMembers := ["alice"], avgExecutionTime := 10 } :=
  c5_success_rate ((LocalStorage.getTestResults emptyFilter scenarioStore5).1)
    (by decide)

/-- C6: with no intervening writes, two `getTestResults` calls with the
same criteria return the same list (the read is a pure function of the
store), and that list is sorted newest-created-first, for both the
local and the Google Drive adapters. -/
theorem c6_read_idempotent_sorted (f : FilterCriteria)
    (store : List StoredObject) :
    LocalStorage.getTestResults f store = LocalStorage.getTestResults f store ∧
    SortedDescBy (fun x => x.createdTime)
      ((LocalStorage.getTestResults f store).1) ∧
    GoogleDrive.getTestResults f store = GoogleDrive.getTestResults f store ∧
    SortedDescBy (fun x => x.createdTime)
      ((GoogleDrive.getTestResults f store).1) := by
  refine ⟨rfl, ?_, rfl, ?_⟩
  · have h1 : (LocalStorage.getTestResults f store).1 =
        sortK (fun x => x.createdTime) (store.filterMap (localExtract f)) := by
      simp [LocalStorage.getTestResults, scan_fst]
    rw [h1]
    exact sortedDescBy_sortK _
  · have h1 : (GoogleDrive.getTestResults f store).1 =
        (sortK (fun o => o.createdTime)
          (store.filter (GoogleDrive.nativeKeep f))).filterMap parseExtract := by
      simp [GoogleDrive.getTestResults, downloadAndParse_fst]
    have hkey : ∀ o ∈ store.filter (GoogleDrive.nativeKeep f),
        ∀ x : ResultRecord, parseExtract o = some x →
          x.createdTime = o.createdTime :=
      fun o _ x hx => parseExtract_time hx
    have hfs : (sortK (fun o : StoredObject => o.createdTime)
          (store.filter (GoogleDrive.nativeKeep f))).filterMap parseExtract =
        sortK (fun x : ResultRecord => x.createdTime)
          ((store.filter (GoogleDrive.nativeKeep f)).filterMap parseExtract) :=
      filterMap_sortK hkey
    rw [h1, hfs]
    exact sortedDescBy_sortK _

/-- C7: a corrupt (non-parsable) stored object is excluded from the
result set with a warning logged for it, every returned record comes
from a parsable object, every parsable matching record is returned,
and the same skip policy holds for `searchTestResults` — the
operations succeed throughout. -/
theorem c7_corrupt_skipped (f : FilterCriteria) (term : String)
    (store : List StoredObject) (o : StoredObject) (h1 : o ∈ store)
    (h2 : o.content = .corrupt) (h3 : hasJsonExt o.name = true) :
    o.name ∈ (LocalStorage.getTestResults f store).2 ∧
    (∀ x ∈ (LocalStorage.getTestResults f store).1,
       ∃ p ∈ store, p.content = .valid x.record) ∧
    (∀ p ∈ store, ∀ r : TestRecord, p.content = .valid r →
       hasJsonExt p.name = true → LocalStorage.keep f r = true →
       r ∈ ((LocalStorage.getTestResults f store).1).map (fun x => x.record)) ∧
    (∀ x ∈ LocalStorage.searchTestResults term store,
       ∃ p ∈ store, p.content = .valid x.record) := by
  have hsnd : (LocalStorage.getTestResults f store).2 =
      store.filterMap corruptJsonName := by
    simp [LocalStorage.getTestResults, scan_snd]
  have hfst : (LocalStorage.getTestResults f store).1 =
      sortK (fun x => x.createdTime) (store.filterMap (localExtract f)) := by
    simp [LocalStorage.getTestResults, scan_fst]
  refine ⟨?_, ?_, ?_, ?_⟩
  · rw [hsnd]
    exact List.mem_filterMap.mpr ⟨o, h1, by simp [corruptJsonName, h2, h3]⟩
  · intro x hx
    rw [hfst] at hx
    rcases List.mem_filterMap.mp (mem_sortK.mp hx) with ⟨p, hp, hpx⟩
    exact ⟨p, hp, localExtract_content hpx⟩
  · intro p hp r hr hj hk
    rw [local_records]
    exact mem_sortK.mpr
      (List.mem_filterMap.mpr ⟨p, hp, by simp [recExtract, hr, hj, hk]⟩)
  · intro x hx
    have hx' : x ∈ (LocalStorage.getTestResults emptyFilter store).1 :=
      List.mem_of_mem_filter hx
    have hfst0 : (LocalStorage.getTestResults emptyFilter store).1 =
        sortK (fun x => x.createdTime)
          (store.filterMap (localExtract emptyFilter)) := by
      simp [LocalStorage.getTestResults, scan_fst]
    rw [hfst0] at hx'
    rcases List.mem_filterMap.mp (mem_sortK.mp hx') with ⟨p, hp, hpx⟩
    exact ⟨p, hp, localExtract_content hpx⟩

/-- Witness for C7: the corrupt object's name is warned about on a
concrete store. -/
theorem c7_corrupt_skipped_witness :
    corruptObj.name ∈
      (LocalStorage.getTestResults emptyFilter
        [wfObject recPay, corruptObj]).2 :=
  (c7_corrupt_skipped emptyFilter "login" [wfObject recPay, corruptObj]
    corruptObj (by decide) rfl (by decide)).1

/-- C8: `cleanupOldResults(daysToKeep)` deletes exactly the parsable
`.json` records whose `created_at` precedes `now - daysToKeep` days
and whose deletion succeeds, returns their count, and a failed
deletion leaves only that file in place without aborting the rest; in
particular the 100-days-old/today scenario deletes exactly the old
record and returns 1, and with a deletion failure on one of two old
records the other is still deleted and counted. -/
theorem c8_cleanup (now : Millis) (d : Nat) (deleteOk : List Char → Bool)
    (store : List StoredObject) :
    ((LocalStorage.cleanupOldResults now d deleteOk store).1 =
        (store.filter
          (fun o => localDeletable now d o && deleteOk o.name)).length ∧
     (LocalStorage.cleanupOldResults now d deleteOk store).2.1 =
        store.filter
          (fun o => !(localDeletable now d o && deleteOk o.name))) ∧
    (LocalStorage.cleanupOldResults (200 * msPerDay) 90 (fun _ => true)
        store8).1 = 1 ∧
    (LocalStorage.cleanupOldResults (200 * msPerDay) 90 (fun _ => true)
        store8).2.1 = [wfObject recToday] ∧
    (LocalStorage.cleanupOldResults (200 * msPerDay) 90 failOnOld
        store8b).1 = 1 ∧
    (LocalStorage.cleanupOldResults (200 * msPerDay) 90 failOnOld
        store8b).2.1 = [wfObject recOld] := by
  refine ⟨local_cleanup_spec now d deleteOk store, ?_, ?_, ?_, ?_⟩ <;> decide

end QADash



